import Mathlib

/-!
Shallow embedding of the xfbank plugin (`src/main.py`): an in-memory bank
ledger driven by chat commands.  Python dicts are modelled as insertion-ordered
association lists with string keys; Python ints as `Int`; `None`-able record
fields as `Option`.  `datetime.now()` strings are threaded as explicit `now`
parameters, and the simulated external-bank call is a `Bool` parameter
(the collaborator's reported result).  Replies yielded to the chat user are
modelled by small inductive types carrying the data embedded in the message
text; a `none` reply models an uncaught Python exception escaping the handler.
-/

/-- First-match lookup in an association list (Python `dict[k]` / `dict.get`). -/
def lookupA {α : Type} (m : List (String × α)) (k : String) : Option α :=
  match m with
  | [] => none
  | (k', v) :: rest => if k' = k then some v else lookupA rest k

/-- Python `dict.get(k, d)`. -/
def getD {α : Type} (m : List (String × α)) (k : String) (d : α) : α :=
  (lookupA m k).getD d

/-- Python `dict[k] = v`: update in place if the key exists, else append. -/
def setA {α : Type} (m : List (String × α)) (k : String) (v : α) : List (String × α) :=
  match m with
  | [] => [(k, v)]
  | (k', v') :: rest => if k' = k then (k, v) :: rest else (k', v') :: setA rest k v

/-- One entry of a per-account transaction list (`add_transaction`'s `record`
dict: time, type tag, amount, optional counterparty descriptor, and a snapshot
of the account balance at append time). -/
structure TxRecord where
  time : String
  type : String
  amount : Int
  target : Option String
  balance : Int
deriving Repr, DecidableEq

/-- The `BankData` state: the four persisted dicts of the Python class. -/
structure BankData where
  accounts : List (String × Int)
  cards : List (String × String)
  passwords : List (String × String)
  transactions : List (String × List TxRecord)
deriving Repr, DecidableEq

/-- Fresh state (`BankData.__init__` with no data file present). -/
def emptyBank : BankData := ⟨[], [], [], []⟩

/-- The trim step of `add_transaction`: keep only the last 100 entries
(`lst[-100:]` when `len(lst) > 100`). -/
def trim100 (l : List TxRecord) : List TxRecord :=
  if l.length > 100 then l.drop (l.length - 100) else l

/-- `BankData.add_transaction`: append a record (with a balance snapshot via
`accounts.get(user_id, 0)`) to the user's list, creating the list if absent,
then trim to the most recent 100 entries.  The `save_data` I/O call does not
affect in-memory state. -/
def BankData.add_transaction (bd : BankData) (user_id ttype : String)
    (amount : Int) (target : Option String) (now : String) : BankData :=
  let txs := getD bd.transactions user_id []
  let record : TxRecord :=
    { time := now, type := ttype, amount := amount, target := target
      balance := getD bd.accounts user_id 0 }
  { bd with transactions := setA bd.transactions user_id (trim100 (txs ++ [record])) }

/-- The zero-padded six-character tail of the user id:
`str(user_id)[-6:].zfill(6)`. -/
def last6zfill (user_id : String) : List Char :=
  let l := user_id.data
  let t := l.drop (l.length - 6)
  List.replicate (6 - t.length) '0' ++ t

/-- `generate_card_number`: prefix "XF", the padded six-character tail, and a
check digit `sum(int(c) for c in suffix) % 10`.  Python's `int(c)` raises
`ValueError` on a non-digit character, modelled as `none`; on digits it equals
`c.toNat - 48`, and the f-string renders the one-digit check value as the
character `Char.ofNat (48 + d)`. -/
def generate_card_number (user_id : String) : Option String :=
  let s := last6zfill user_id
  if s.all Char.isDigit then
    some (String.mk ('X' :: 'F' ::
      (s ++ [Char.ofNat (48 + (s.map (fun c => c.toNat - 48)).sum % 10)])))
  else none

/-- `verify_password`: `passwords.get(user_id) == password` (a missing entry
compares unequal to any supplied string). -/
def verify_password (bd : BankData) (user_id password : String) : Bool :=
  lookupA bd.passwords user_id == some password

/-- Replies of the `/xfbank kaihu` handler, carrying the card number embedded
in the message text. -/
inductive KaihuReply where
  | alreadyOpened (card : String)
  | passwordTooShort
  | opened (card : String)
deriving Repr, DecidableEq

/-- The `/xfbank kaihu <password>` handler.  An existing card is returned
unchanged; a short password is rejected; otherwise the card is generated, the
three per-user entries are written and an opening transaction is appended.
A `none` reply is the uncaught `ValueError` from `generate_card_number`,
raised before any state is mutated. -/
def kaihu (bd : BankData) (user_id password now : String) :
    Option KaihuReply × BankData :=
  if (lookupA bd.cards user_id).isSome then
    (some (.alreadyOpened (getD bd.cards user_id "")), bd)
  else if password.length < 6 then
    (some .passwordTooShort, bd)
  else
    match generate_card_number user_id with
    | none => (none, bd)
    | some card =>
      let bd := { bd with cards := setA bd.cards user_id card }
      let bd := { bd with accounts := setA bd.accounts user_id 0 }
      let bd := { bd with passwords := setA bd.passwords user_id password }
      let bd := bd.add_transaction user_id "开户" 0 none now
      (some (.opened card), bd)

/-- Replies of the `/bank` handlers. -/
inductive BankReply where
  | notOpened
  | wrongPassword
  | mustBePositive
  | overLimit
  | insufficient (balance : Int)
  | cardNotFound
  | selfTransfer
  | extFailed
  | ok (newBalance : Int)
deriving Repr, DecidableEq

/-- `/bank deposit <amount> <password>`. -/
def deposit (bd : BankData) (user_id : String) (amount : Int)
    (password now : String) : BankReply × BankData :=
  if (lookupA bd.cards user_id).isNone then (.notOpened, bd)
  else if !verify_password bd user_id password then (.wrongPassword, bd)
  else if amount ≤ 0 then (.mustBePositive, bd)
  else if amount > 100000 then (.overLimit, bd)
  else
    let bd := { bd with
      accounts := setA bd.accounts user_id (getD bd.accounts user_id 0 + amount) }
    let bd := bd.add_transaction user_id "存款" amount none now
    (.ok (getD bd.accounts user_id 0), bd)

/-- `/bank withdraw <amount> <password>`. -/
def withdraw (bd : BankData) (user_id : String) (amount : Int)
    (password now : String) : BankReply × BankData :=
  if (lookupA bd.cards user_id).isNone then (.notOpened, bd)
  else if !verify_password bd user_id password then (.wrongPassword, bd)
  else if amount ≤ 0 then (.mustBePositive, bd)
  else if amount > 50000 then (.overLimit, bd)
  else
    let current := getD bd.accounts user_id 0
    if current < amount then (.insufficient current, bd)
    else
      let bd := { bd with accounts := setA bd.accounts user_id (current - amount) }
      let bd := bd.add_transaction user_id "取款" amount none now
      (.ok (getD bd.accounts user_id 0), bd)

/-- `/bank transfer 本行 <target_card> <amount> <password>`.  The target user
is the first entry of the card dict whose value equals the card (Python's
`for uid, card in cards.items()` scan); `if not target_user_id` treats both a
failed scan and an empty-string user id as "card not found". -/
def transfer_local (bd : BankData) (user_id target_card : String) (amount : Int)
    (password now : String) : BankReply × BankData :=
  if (lookupA bd.cards user_id).isNone then (.notOpened, bd)
  else if !verify_password bd user_id password then (.wrongPassword, bd)
  else if amount ≤ 0 then (.mustBePositive, bd)
  else if amount > 50000 then (.overLimit, bd)
  else
    match bd.cards.find? (fun p => p.2 == target_card) with
    | none => (.cardNotFound, bd)
    | some (tuid, _) =>
      if tuid = "" then (.cardNotFound, bd)
      else if tuid = user_id then (.selfTransfer, bd)
      else
        let current := getD bd.accounts user_id 0
        if current < amount then (.insufficient current, bd)
        else
          let bd := { bd with accounts := setA bd.accounts user_id (current - amount) }
          let bd := { bd with
            accounts := setA bd.accounts tuid (getD bd.accounts tuid 0 + amount) }
          let bd := bd.add_transaction user_id "转账支出" amount (some target_card) now
          let bd := bd.add_transaction tuid "转账收入" amount (lookupA bd.cards user_id) now
          (.ok (getD bd.accounts user_id 0), bd)

/-- `/bank transfer <bank> <account> <amount> <password>`.  `extOk` is the
Boolean reported by the `other_bank_transfer` collaborator; on failure the
debit is rolled back to the pre-debit balance and nothing is recorded. -/
def transfer_ext (bd : BankData) (user_id bank_name target_account : String)
    (amount : Int) (password : String) (extOk : Bool) (now : String) :
    BankReply × BankData :=
  if (lookupA bd.cards user_id).isNone then (.notOpened, bd)
  else if !verify_password bd user_id password then (.wrongPassword, bd)
  else if amount ≤ 0 then (.mustBePositive, bd)
  else if amount > 50000 then (.overLimit, bd)
  else
    let current := getD bd.accounts user_id 0
    if current < amount then (.insufficient current, bd)
    else
      let bd1 := { bd with accounts := setA bd.accounts user_id (current - amount) }
      if extOk then
        let bd2 := bd1.add_transaction user_id ("跨行转账至" ++ bank_name) amount
          (some target_account) now
        (.ok (getD bd2.accounts user_id 0), bd2)
      else
        (.extFailed, { bd1 with accounts := setA bd1.accounts user_id current })

/-- Replies of the `/bank record` handler. -/
inductive RecordReply where
  | notOpened
  | wrongPassword
  | noRecords
  | display (records : List TxRecord)
deriving Repr, DecidableEq

/-- Python `l[i:]` for an integer `i`: a nonnegative start drops `i` elements,
a negative start begins `-i` places from the end (clamped at the front). -/
def pythonSliceFrom {α : Type} (l : List α) (i : Int) : List α :=
  if 0 ≤ i then l.drop i.toNat else l.drop (l.length - (-i).toNat)

/-- `/bank record [count] <password>`: a supplied count is `min(count, 20)`,
an absent one defaults to 10; the last `count` records (`records[-count:]`)
are shown most-recent-first (`[::-1]`). -/
def record_cmd (bd : BankData) (user_id : String) (countArg : Option Int)
    (password : String) : RecordReply :=
  if (lookupA bd.cards user_id).isNone then .notOpened
  else
    let count : Int := match countArg with | some c => min c 20 | none => 10
    if !verify_password bd user_id password then .wrongPassword
    else
      let records := getD bd.transactions user_id []
      if records.isEmpty then .noRecords
      else .display ((pythonSliceFrom records (-count)).reverse)

/-- An operation of the command surface, with the external inputs (clock
string, collaborator result) packaged into the constructor. -/
inductive Op where
  | opKaihu (user_id password now : String)
  | opDeposit (user_id : String) (amount : Int) (password now : String)
  | opWithdraw (user_id : String) (amount : Int) (password now : String)
  | opTransferLocal (user_id target_card : String) (amount : Int) (password now : String)
  | opTransferExt (user_id bank_name target_account : String) (amount : Int)
      (password : String) (extOk : Bool) (now : String)
deriving Repr

/-- The state transition of one command (the reply is discarded). -/
def step (bd : BankData) (op : Op) : BankData :=
  match op with
  | .opKaihu u pw now => (kaihu bd u pw now).2
  | .opDeposit u a pw now => (deposit bd u a pw now).2
  | .opWithdraw u a pw now => (withdraw bd u a pw now).2
  | .opTransferLocal u tc a pw now => (transfer_local bd u tc a pw now).2
  | .opTransferExt u b t a pw ok now => (transfer_ext bd u b t a pw ok now).2

/-- Run a sequence of commands from a starting state. -/
def run (bd : BankData) (ops : List Op) : BankData := ops.foldl step bd

theorem lookupA_setA_self {α : Type} (m : List (String × α)) (k : String) (v : α) :
    lookupA (setA m k v) k = some v := by
  induction m with
  | nil => simp [setA, lookupA]
  | cons p rest ih =>
    obtain ⟨k', v'⟩ := p
    by_cases h : k' = k <;> simp [setA, lookupA, h, ih]

theorem lookupA_setA_ne {α : Type} (m : List (String × α)) (k k' : String) (v : α)
    (h : k' ≠ k) : lookupA (setA m k v) k' = lookupA m k' := by
  induction m with
  | nil => simp [setA, lookupA, Ne.symm h]
  | cons p rest ih =>
    obtain ⟨k₀, v₀⟩ := p
    by_cases h0 : k₀ = k
    · subst h0
      simp [setA, lookupA, Ne.symm h]
    · simp [setA, lookupA, h0, ih]

theorem getD_setA_self {α : Type} (m : List (String × α)) (k : String) (v d : α) :
    getD (setA m k v) k d = v := by
  simp [getD, lookupA_setA_self]

theorem getD_setA_ne {α : Type} (m : List (String × α)) (k k' : String) (v : α)
    (d : α) (h : k' ≠ k) : getD (setA m k v) k' d = getD m k' d := by
  simp [getD, lookupA_setA_ne _ _ _ _ h]

/-- Writing back the looked-up value after an overwrite restores the list,
entry positions included. -/
theorem setA_setA_restore {α : Type} (m : List (String × α)) (k : String)
    (v w : α) (h : lookupA m k = some v) : setA (setA m k w) k v = m := by
  induction m with
  | nil => simp [lookupA] at h
  | cons p rest ih =>
    obtain ⟨k', v'⟩ := p
    by_cases h0 : k' = k
    · subst h0
      simp [lookupA] at h
      simp [setA, h]
    · simp [lookupA, h0] at h
      simp [setA, h0, ih h]

theorem trim100_length_le (l : List TxRecord) : (trim100 l).length ≤ 100 := by
  unfold trim100
  split
  · simp only [List.length_drop]
    omega
  · omega

theorem trim100_eq_drop (l : List TxRecord) :
    trim100 l = l.drop (l.length - 100) := by
  unfold trim100
  split
  · rfl
  · have : l.length - 100 = 0 := by omega
    simp [this]

theorem add_transaction_accounts (bd : BankData) (u ty : String) (a : Int)
    (tg : Option String) (now : String) :
    (bd.add_transaction u ty a tg now).accounts = bd.accounts := rfl

theorem add_transaction_cards (bd : BankData) (u ty : String) (a : Int)
    (tg : Option String) (now : String) :
    (bd.add_transaction u ty a tg now).cards = bd.cards := rfl

theorem add_transaction_self (bd : BankData) (u ty : String) (a : Int)
    (tg : Option String) (now : String) :
    getD (bd.add_transaction u ty a tg now).transactions u [] =
      trim100 (getD bd.transactions u [] ++
        [⟨now, ty, a, tg, getD bd.accounts u 0⟩]) := by
  simp [BankData.add_transaction, getD_setA_self]

theorem add_transaction_other (bd : BankData) (u ty : String) (a : Int)
    (tg : Option String) (now : String) (w : String) (h : w ≠ u) :
    getD (bd.add_transaction u ty a tg now).transactions w [] =
      getD bd.transactions w [] := by
  simp [BankData.add_transaction, getD_setA_ne _ _ _ _ _ h]

/-- The invariant carried through every command: balances are nonnegative and
every transaction list holds at most 100 entries. -/
def BankInv (bd : BankData) : Prop :=
  (∀ u, 0 ≤ getD bd.accounts u 0) ∧
  (∀ u, (getD bd.transactions u []).length ≤ 100)

theorem bankInv_empty : BankInv emptyBank := by
  constructor <;> intro u <;> simp [emptyBank, getD, lookupA]

theorem bankInv_add_transaction (bd : BankData) (u ty : String) (a : Int)
    (tg : Option String) (now : String) (h : BankInv bd) :
    BankInv (bd.add_transaction u ty a tg now) := by
  obtain ⟨h1, h2⟩ := h
  constructor
  · intro w; rw [add_transaction_accounts]; exact h1 w
  · intro w
    by_cases hw : w = u
    · subst hw; rw [add_transaction_self]; exact trim100_length_le _
    · rw [add_transaction_other _ _ _ _ _ _ _ hw]; exact h2 w

theorem bankInv_set_account (bd : BankData) (u : String) (v : Int)
    (hv : 0 ≤ v) (h : BankInv bd) :
    BankInv { bd with accounts := setA bd.accounts u v } := by
  obtain ⟨h1, h2⟩ := h
  refine ⟨?_, h2⟩
  intro w
  show 0 ≤ getD (setA bd.accounts u v) w 0
  by_cases hw : w = u
  · subst hw; rw [getD_setA_self]; exact hv
  · rw [getD_setA_ne _ _ _ _ _ hw]; exact h1 w

theorem bankInv_set_cards_passwords (bd : BankData)
    (cs ps : List (String × String)) (h : BankInv bd) :
    BankInv { bd with cards := cs, passwords := ps } := h

theorem bankInv_step (bd : BankData) (op : Op) (h : BankInv bd) :
    BankInv (step bd op) := by
  cases op with
  | opKaihu u pw now =>
    dsimp only [step]
    unfold kaihu
    split
    · exact h
    split
    · exact h
    split
    · exact h
    · dsimp only
      apply bankInv_add_transaction
      exact bankInv_set_cards_passwords _ _ _
        (bankInv_set_account _ _ _ le_rfl (bankInv_set_cards_passwords _ _ _ h))
  | opDeposit u a pw now =>
    dsimp only [step]
    unfold deposit
    split
    · exact h
    split
    · exact h
    split
    · exact h
    split
    · exact h
    dsimp only
    apply bankInv_add_transaction
    exact bankInv_set_account _ _ _ (by have := h.1 u; omega) h
  | opWithdraw u a pw now =>
    dsimp only [step]
    unfold withdraw
    split
    · exact h
    split
    · exact h
    split
    · exact h
    split
    · exact h
    dsimp only
    split
    · exact h
    dsimp only
    apply bankInv_add_transaction
    exact bankInv_set_account _ _ _ (by omega) h
  | opTransferLocal u tc a pw now =>
    dsimp only [step]
    unfold transfer_local
    split
    · exact h
    split
    · exact h
    split
    · exact h
    split
    · exact h
    split
    · exact h
    split
    · exact h
    split
    · exact h
    dsimp only
    split
    · exact h
    dsimp only
    rename_i tuid _ _ _ hne hbal
    apply bankInv_add_transaction
    apply bankInv_add_transaction
    have hcredit : 0 ≤ getD (setA bd.accounts u (getD bd.accounts u 0 - a)) tuid 0 + a := by
      have := h.1 tuid
      by_cases hq : tuid = u
      · rw [hq, getD_setA_self]; omega
      · rw [getD_setA_ne _ _ _ _ _ hq]; omega
    exact bankInv_set_account
      { bd with accounts := setA bd.accounts u (getD bd.accounts u 0 - a) } tuid _
      hcredit (bankInv_set_account bd u _ (by omega) h)
  | opTransferExt u bn ta a pw ok now =>
    dsimp only [step]
    unfold transfer_ext
    split
    · exact h
    split
    · exact h
    split
    · exact h
    split
    · exact h
    dsimp only
    split
    · exact h
    split
    · apply bankInv_add_transaction
      exact bankInv_set_account _ _ _ (by omega) h
    · exact bankInv_set_account
        { bd with accounts := setA bd.accounts u (getD bd.accounts u 0 - a) } u _
        (h.1 u) (bankInv_set_account bd u _ (by omega) h)

theorem bankInv_run (bd : BankData) (ops : List Op) (h : BankInv bd) :
    BankInv (run bd ops) := by
  induction ops generalizing bd with
  | nil => exact h
  | cons op rest ih => exact ih _ (bankInv_step _ _ h)

/-- JSON values as produced and consumed by `json.dump` / `json.load`
(the textual layer is the Python standard library's; value round-tripping is
modelled at the level of the JSON tree). -/
inductive Json where
  | null : Json
  | str : String → Json
  | int : Int → Json
  | arr : List Json → Json
  | obj : List (String × Json) → Json

/-- Encoding of one transaction record dict. -/
def encodeRecord (r : TxRecord) : Json :=
  .obj [("time", .str r.time), ("type", .str r.type), ("amount", .int r.amount),
    ("target", match r.target with | none => .null | some s => .str s),
    ("balance", .int r.balance)]

/-- `save_data`: the dict written to the store file (the four state dicts,
serialized wholesale). -/
def save_data (bd : BankData) : Json :=
  .obj [("accounts", .obj (bd.accounts.map fun p => (p.1, .int p.2))),
    ("cards", .obj (bd.cards.map fun p => (p.1, .str p.2))),
    ("passwords", .obj (bd.passwords.map fun p => (p.1, .str p.2))),
    ("transactions", .obj (bd.transactions.map fun p => (p.1, .arr (p.2.map encodeRecord))))]

def decodeRecord (j : Json) : Option TxRecord :=
  match j with
  | .obj fs => do
    let .some (.str time) := lookupA fs "time" | none
    let .some (.str ty) := lookupA fs "type" | none
    let .some (.int amount) := lookupA fs "amount" | none
    let .some tg := lookupA fs "target" | none
    let .some (.int balance) := lookupA fs "balance" | none
    let target ← match tg with | .null => some none | .str s => some (some s) | _ => none
    some ⟨time, ty, amount, target, balance⟩
  | _ => none

/-- All-or-nothing map over a list (`none` as soon as one element fails). -/
def mapOptionAll {α β : Type} (f : α → Option β) : List α → Option (List β)
  | [] => some []
  | x :: xs => do
    let y ← f x
    let ys ← mapOptionAll f xs
    some (y :: ys)

def decodeStrMap (j : Json) : Option (List (String × String)) :=
  match j with
  | .obj fs => mapOptionAll (fun p => match p.2 with | .str s => some (p.1, s) | _ => none) fs
  | _ => none

def decodeIntMap (j : Json) : Option (List (String × Int)) :=
  match j with
  | .obj fs => mapOptionAll (fun p => match p.2 with | .int n => some (p.1, n) | _ => none) fs
  | _ => none

def decodeTxMap (j : Json) : Option (List (String × List TxRecord)) :=
  match j with
  | .obj fs => mapOptionAll (fun p =>
      match p.2 with
      | .arr rs => (mapOptionAll decodeRecord rs).map fun l => (p.1, l)
      | _ => none) fs
  | _ => none

/-- `load_data`: read the four dicts back with `data.get(key, {})` defaults.
A shape the in-memory model cannot hold is `none` (in Python such data would
be assigned unchecked and crash later). -/
def load_data (j : Json) : Option BankData :=
  match j with
  | .obj fs => do
    let accounts ← decodeIntMap (getD fs "accounts" (.obj []))
    let cards ← decodeStrMap (getD fs "cards" (.obj []))
    let passwords ← decodeStrMap (getD fs "passwords" (.obj []))
    let transactions ← decodeTxMap (getD fs "transactions" (.obj []))
    some ⟨accounts, cards, passwords, transactions⟩
  | _ => none

theorem decodeRecord_encodeRecord (r : TxRecord) :
    decodeRecord (encodeRecord r) = some r := by
  obtain ⟨t, ty, a, tg, b⟩ := r
  cases tg <;> rfl

theorem mapOptionAll_decodeRecord (l : List TxRecord) :
    mapOptionAll decodeRecord (l.map encodeRecord) = some l := by
  induction l with
  | nil => rfl
  | cons r rest ih =>
    simp [mapOptionAll, decodeRecord_encodeRecord, ih]

theorem decodeIntMap_encode (m : List (String × Int)) :
    decodeIntMap (.obj (m.map fun p => (p.1, .int p.2))) = some m := by
  induction m with
  | nil => rfl
  | cons p rest ih =>
    simp only [decodeIntMap, List.map_cons, mapOptionAll] at *
    simp [ih]

theorem decodeStrMap_encode (m : List (String × String)) :
    decodeStrMap (.obj (m.map fun p => (p.1, .str p.2))) = some m := by
  induction m with
  | nil => rfl
  | cons p rest ih =>
    simp only [decodeStrMap, List.map_cons, mapOptionAll] at *
    simp [ih]

theorem decodeTxMap_encode (m : List (String × List TxRecord)) :
    decodeTxMap (.obj (m.map fun p => (p.1, .arr (p.2.map encodeRecord)))) = some m := by
  induction m with
  | nil => rfl
  | cons p rest ih =>
    simp only [decodeTxMap, List.map_cons, mapOptionAll] at *
    simp [mapOptionAll_decodeRecord, ih]

theorem last6zfill_length (u : String) : (last6zfill u).length = 6 := by
  simp only [last6zfill, List.length_append, List.length_replicate, List.length_drop]
  omega

/-- C1 (counterexample): the user identifiers "1123456" and "2123456" are
distinct, both open accounts successfully, and both are assigned the same
card number "XF1234561" — card generation is deterministic in the last six
characters of the identifier and performs no collision check. -/
theorem card_collision_concrete :
    ("1123456" : String) ≠ "2123456" ∧
    lookupA (kaihu (kaihu emptyBank "1123456" "secret" "t1").2
      "2123456" "secret" "t2").2.cards "1123456" = some "XF1234561" ∧
    lookupA (kaihu (kaihu emptyBank "1123456" "secret" "t1").2
      "2123456" "secret" "t2").2.cards "2123456" = some "XF1234561" := by
  refine ⟨by decide, ?_, ?_⟩ <;> rfl

/-- C1 (amended): two successfully generated card numbers coincide exactly
when the zero-padded six-character tails of the two user identifiers
coincide; distinct cards are guaranteed only for identifiers with distinct
padded tails. -/
theorem card_eq_iff_suffix_eq (u1 u2 c1 c2 : String)
    (h1 : generate_card_number u1 = some c1)
    (h2 : generate_card_number u2 = some c2) :
    c1 = c2 ↔ last6zfill u1 = last6zfill u2 := by
  have e1 : c1 = String.mk ('X' :: 'F' :: (last6zfill u1 ++
      [Char.ofNat (48 + ((last6zfill u1).map (fun c => c.toNat - 48)).sum % 10)])) := by
    by_cases d : (last6zfill u1).all Char.isDigit
    · simp [generate_card_number, d] at h1; exact h1.symm
    · simp [generate_card_number, d] at h1
  have e2 : c2 = String.mk ('X' :: 'F' :: (last6zfill u2 ++
      [Char.ofNat (48 + ((last6zfill u2).map (fun c => c.toNat - 48)).sum % 10)])) := by
    by_cases d : (last6zfill u2).all Char.isDigit
    · simp [generate_card_number, d] at h2; exact h2.symm
    · simp [generate_card_number, d] at h2
  subst e1 e2
  constructor
  · intro hc
    have hl := congrArg String.data hc
    simp only [String.data] at hl
    simp only [List.cons.injEq, true_and] at hl
    exact (List.append_inj hl (by rw [last6zfill_length, last6zfill_length])).1
  · intro hs
    rw [hs]

theorem card_eq_iff_suffix_eq_witness :
    (("XF1000001" : String) = "XF2000002" ↔ last6zfill "100000" = last6zfill "200000") :=
  card_eq_iff_suffix_eq "100000" "200000" "XF1000001" "XF2000002" (by decide) (by decide)

/-- C5: starting from the fresh state, after any sequence of open, deposit,
withdraw, intra-bank transfer, and external-transfer commands, every account
balance is nonnegative: each debiting operation validates a positive amount
and sufficient balance first, and a failed external transfer restores the
pre-debit balance. -/
theorem balances_never_negative (ops : List Op) (u : String) :
    0 ≤ getD (run emptyBank ops).accounts u 0 :=
  (bankInv_run emptyBank ops bankInv_empty).1 u

/-- C6: after any sequence of commands every per-account transaction list has
at most 100 entries, and each append keeps exactly the most recent records:
the new list is the appended list with its oldest entries dropped down to 100
(`(old ++ [record]).drop (length - 100)`). -/
theorem tx_cap_and_fifo :
    (∀ (ops : List Op) (u : String),
      (getD (run emptyBank ops).transactions u []).length ≤ 100) ∧
    (∀ (bd : BankData) (u ty : String) (a : Int) (tg : Option String) (now : String),
      getD (bd.add_transaction u ty a tg now).transactions u [] =
        (getD bd.transactions u [] ++
          [(⟨now, ty, a, tg, getD bd.accounts u 0⟩ : TxRecord)]).drop
          ((getD bd.transactions u [] ++
            [(⟨now, ty, a, tg, getD bd.accounts u 0⟩ : TxRecord)]).length - 100)) :=
  ⟨fun ops u => (bankInv_run emptyBank ops bankInv_empty).2 u,
   fun bd u ty a tg now => by rw [add_transaction_self, trim100_eq_drop]⟩

/-- C9: persisting the in-memory state and loading it back reproduces the
identical state: `load_data` is a left inverse of `save_data` on the JSON
tree (this revision keeps no check-in state and derives card lookups by
scanning the card map rather than via a materialized reverse index). -/
theorem persist_load_roundtrip (bd : BankData) : load_data (save_data bd) = some bd := by
  simp [load_data, save_data, getD, lookupA, decodeIntMap_encode,
    decodeStrMap_encode, decodeTxMap_encode]

/-- C10: card generation succeeds only when all six characters of the padded
tail are decimal digits; any other identifier makes the check-digit
computation raise, so the open-account handler aborts before creating any
account, card, password, or transaction entry. -/
theorem kaihu_nondigit_fails (bd : BankData) (u pw now : String)
    (hnew : lookupA bd.cards u = none)
    (hpw : ¬ pw.length < 6)
    (hdig : ¬ (last6zfill u).all Char.isDigit = true) :
    generate_card_number u = none ∧ kaihu bd u pw now = (none, bd) := by
  have hg : generate_card_number u = none := by simp [generate_card_number, hdig]
  refine ⟨hg, ?_⟩
  simp [kaihu, hnew, hpw, hg]

theorem kaihu_nondigit_fails_witness :
    generate_card_number "12345a" = none ∧
    kaihu emptyBank "12345a" "secret" "t" = (none, emptyBank) :=
  kaihu_nondigit_fails emptyBank "12345a" "secret" "t" rfl (by decide) (by decide)

theorem kaihu_state_eq (bd : BankData) (u pw now card : String)
    (hnew : lookupA bd.cards u = none)
    (hpw : ¬ pw.length < 6)
    (hgen : generate_card_number u = some card) :
    (kaihu bd u pw now).1 = some (.opened card) ∧
    (kaihu bd u pw now).2 =
      ({ bd with
          cards := setA bd.cards u card
          accounts := setA bd.accounts u 0
          passwords := setA bd.passwords u pw } : BankData).add_transaction
        u "开户" 0 none now := by
  simp [kaihu, hnew, hpw, hgen]

/-- C8: opening is idempotent.  A first successful open on a fresh identifier
returns the generated card; every later open request for the same identifier
returns that same card and leaves the state untouched, and the account's
transaction list holds exactly one open-account ("开户") record no matter how
many further open requests are folded in. -/
theorem kaihu_idempotent (bd : BankData) (u pw now card : String)
    (hnew : lookupA bd.cards u = none)
    (hpw : ¬ pw.length < 6)
    (hgen : generate_card_number u = some card)
    (htx : lookupA bd.transactions u = none) :
    (kaihu bd u pw now).1 = some (.opened card) ∧
    (∀ pw2 now2, kaihu (kaihu bd u pw now).2 u pw2 now2 =
      (some (.alreadyOpened card), (kaihu bd u pw now).2)) ∧
    ((getD (kaihu bd u pw now).2.transactions u []).countP
      (fun r => r.type == "开户") = 1) ∧
    (∀ reqs : List (String × String),
      reqs.foldl (fun b p => (kaihu b u p.1 p.2).2) (kaihu bd u pw now).2 =
        (kaihu bd u pw now).2) := by
  obtain ⟨hr, hst⟩ := kaihu_state_eq bd u pw now card hnew hpw hgen
  have hlook : lookupA (kaihu bd u pw now).2.cards u = some card := by
    rw [hst, add_transaction_cards]
    exact lookupA_setA_self _ _ _
  have hsecond : ∀ pw2 now2, kaihu (kaihu bd u pw now).2 u pw2 now2 =
      (some (.alreadyOpened card), (kaihu bd u pw now).2) := by
    intro pw2 now2
    generalize (kaihu bd u pw now).2 = bd1 at hlook ⊢
    simp [kaihu, hlook, getD]
  have htxu : getD (kaihu bd u pw now).2.transactions u [] =
      [⟨now, "开户", 0, none, 0⟩] := by
    rw [hst, add_transaction_self]
    have h1 : getD ({ bd with
        cards := setA bd.cards u card
        accounts := setA bd.accounts u 0
        passwords := setA bd.passwords u pw } : BankData).accounts u 0 = 0 := by
      show getD (setA bd.accounts u 0) u 0 = 0
      exact getD_setA_self _ _ _ _
    have h0 : getD ({ bd with
        cards := setA bd.cards u card
        accounts := setA bd.accounts u 0
        passwords := setA bd.passwords u pw } : BankData).transactions u [] = [] := by
      show getD bd.transactions u [] = []
      simp [getD, htx]
    rw [h0, h1]
    rfl
  refine ⟨hr, hsecond, ?_, ?_⟩
  · rw [htxu]
    rfl
  · intro reqs
    induction reqs with
    | nil => rfl
    | cons p rest ih =>
      simp only [List.foldl]
      rw [show (kaihu (kaihu bd u pw now).2 u p.1 p.2).2 = (kaihu bd u pw now).2 by
        rw [hsecond p.1 p.2]]
      exact ih

theorem kaihu_idempotent_witness :
    (kaihu emptyBank "123456" "secret" "t1").1 =
      some (.opened "XF1234561") ∧
    (∀ pw2 now2, kaihu (kaihu emptyBank "123456" "secret" "t1").2 "123456" pw2 now2 =
      (some (.alreadyOpened "XF1234561"), (kaihu emptyBank "123456" "secret" "t1").2)) ∧
    ((getD (kaihu emptyBank "123456" "secret" "t1").2.transactions "123456" []).countP
      (fun r => r.type == "开户") = 1) ∧
    (∀ reqs : List (String × String),
      reqs.foldl (fun b p => (kaihu b "123456" p.1 p.2).2)
        (kaihu emptyBank "123456" "secret" "t1").2 =
        (kaihu emptyBank "123456" "secret" "t1").2) :=
  kaihu_idempotent emptyBank "123456" "secret" "t1" "XF1234561"
    rfl (by decide) (by decide) rfl

theorem transfer_local_red (bd : BankData) (u target_card : String) (amount : Int)
    (pw now srcCard tuid tc2 : String)
    (hopen : lookupA bd.cards u = some srcCard)
    (hpw : verify_password bd u pw = true)
    (hpos : 0 < amount) (hlim : amount ≤ 50000)
    (hfind : bd.cards.find? (fun p => p.2 == target_card) = some (tuid, tc2))
    (hne0 : tuid ≠ "") (hneq : tuid ≠ u)
    (hbal : amount ≤ getD bd.accounts u 0) :
    transfer_local bd u target_card amount pw now =
      (let accA := setA bd.accounts u (getD bd.accounts u 0 - amount)
       let accB := setA accA tuid (getD accA tuid 0 + amount)
       let bdB : BankData := { bd with accounts := accB }
       let bdC := bdB.add_transaction u "转账支出" amount (some target_card) now
       let bdD := bdC.add_transaction tuid "转账收入" amount (lookupA bdC.cards u) now
       (.ok (getD bdD.accounts u 0), bdD)) := by
  have h3 : ¬ amount ≤ 0 := by omega
  have h4 : ¬ amount > 50000 := by omega
  have h5 : ¬ getD bd.accounts u 0 < amount := by omega
  simp [transfer_local, hopen, hpw, h3, h4, hfind, hne0, hneq, h5]

/-- C2: a successful intra-bank transfer debits the source by exactly the
amount, credits the distinct target by exactly the amount, and appends
exactly two records — a "转账支出" (transfer-out) record on the source
carrying the target's card and a "转账收入" (transfer-in) record on the
target carrying the source's card, both with the transferred amount — while
every other account's transaction list is untouched. -/
theorem transfer_local_success (bd : BankData) (u target_card : String)
    (amount : Int) (pw now srcCard tuid tc2 : String)
    (hopen : lookupA bd.cards u = some srcCard)
    (hpw : verify_password bd u pw = true)
    (hpos : 0 < amount) (hlim : amount ≤ 50000)
    (hfind : bd.cards.find? (fun p => p.2 == target_card) = some (tuid, tc2))
    (hne0 : tuid ≠ "") (hneq : tuid ≠ u)
    (hbal : amount ≤ getD bd.accounts u 0) :
    (transfer_local bd u target_card amount pw now).1 =
      .ok (getD bd.accounts u 0 - amount) ∧
    getD (transfer_local bd u target_card amount pw now).2.accounts u 0 =
      getD bd.accounts u 0 - amount ∧
    getD (transfer_local bd u target_card amount pw now).2.accounts tuid 0 =
      getD bd.accounts tuid 0 + amount ∧
    getD (transfer_local bd u target_card amount pw now).2.transactions u [] =
      trim100 (getD bd.transactions u [] ++
        [⟨now, "转账支出", amount, some target_card, getD bd.accounts u 0 - amount⟩]) ∧
    getD (transfer_local bd u target_card amount pw now).2.transactions tuid [] =
      trim100 (getD bd.transactions tuid [] ++
        [⟨now, "转账收入", amount, some srcCard, getD bd.accounts tuid 0 + amount⟩]) ∧
    (∀ w, w ≠ u → w ≠ tuid →
      getD (transfer_local bd u target_card amount pw now).2.transactions w [] =
        getD bd.transactions w []) := by
  rw [transfer_local_red bd u target_card amount pw now srcCard tuid tc2
    hopen hpw hpos hlim hfind hne0 hneq hbal]
  refine ⟨?_, ?_, ?_, ?_, ?_, ?_⟩
  · simp [add_transaction_accounts, getD_setA_self,
      getD_setA_ne _ _ _ _ _ (Ne.symm hneq)]
  · simp [add_transaction_accounts, getD_setA_self,
      getD_setA_ne _ _ _ _ _ (Ne.symm hneq)]
  · simp [add_transaction_accounts, getD_setA_self,
      getD_setA_ne _ _ _ _ _ hneq]
  · simp [add_transaction_other _ _ _ _ _ _ _ (Ne.symm hneq), add_transaction_self,
      getD_setA_self, getD_setA_ne _ _ _ _ _ (Ne.symm hneq)]
  · simp [add_transaction_self, add_transaction_other _ _ _ _ _ _ _ hneq,
      add_transaction_cards, add_transaction_accounts, hopen, getD_setA_self,
      getD_setA_ne _ _ _ _ _ hneq]
  · intro w hw1 hw2
    simp [add_transaction_other _ _ _ _ _ _ _ hw1,
      add_transaction_other _ _ _ _ _ _ _ hw2]

/-- Concrete two-account state used to instantiate the transfer theorems. -/
def wBd : BankData :=
  ⟨[("u1", 100), ("u2", 5)], [("u1", "C1"), ("u2", "C2")],
   [("u1", "p1"), ("u2", "p2")], []⟩

theorem transfer_local_success_witness :
    (transfer_local wBd "u1" "C2" 50 "p1" "t").1 = .ok 50 ∧
    getD (transfer_local wBd "u1" "C2" 50 "p1" "t").2.accounts "u1" 0 = 50 ∧
    getD (transfer_local wBd "u1" "C2" 50 "p1" "t").2.accounts "u2" 0 = 55 ∧
    getD (transfer_local wBd "u1" "C2" 50 "p1" "t").2.transactions "u1" [] =
      [⟨"t", "转账支出", 50, some "C2", 50⟩] ∧
    getD (transfer_local wBd "u1" "C2" 50 "p1" "t").2.transactions "u2" [] =
      [⟨"t", "转账收入", 50, some "C1", 55⟩] ∧
    (∀ w, w ≠ "u1" → w ≠ "u2" →
      getD (transfer_local wBd "u1" "C2" 50 "p1" "t").2.transactions w [] =
        getD wBd.transactions w []) :=
  transfer_local_success wBd "u1" "C2" 50 "p1" "t" "C1" "u2" "C2"
    rfl rfl (by decide) (by decide) rfl (by decide) (by decide) (by decide)

/-- C3: an intra-bank transfer request that passes every earlier validation
but asks for more than the source balance is answered with the
insufficient-funds error and returns the state completely unchanged — no
balance is mutated and no transaction is recorded on either side. -/
theorem transfer_local_insufficient (bd : BankData) (u target_card : String)
    (amount : Int) (pw now srcCard tuid tc2 : String)
    (hopen : lookupA bd.cards u = some srcCard)
    (hpw : verify_password bd u pw = true)
    (hpos : 0 < amount) (hlim : amount ≤ 50000)
    (hfind : bd.cards.find? (fun p => p.2 == target_card) = some (tuid, tc2))
    (hne0 : tuid ≠ "") (hneq : tuid ≠ u)
    (hbal : getD bd.accounts u 0 < amount) :
    transfer_local bd u target_card amount pw now =
      (.insufficient (getD bd.accounts u 0), bd) := by
  have h3 : ¬ amount ≤ 0 := by omega
  have h4 : ¬ amount > 50000 := by omega
  simp [transfer_local, hopen, hpw, h3, h4, hfind, hne0, hneq, hbal]

theorem transfer_local_insufficient_witness :
    transfer_local wBd "u2" "C1" 1000 "p2" "t" = (.insufficient 5, wBd) :=
  transfer_local_insufficient wBd "u2" "C1" 1000 "p2" "t" "C2" "u1" "C1"
    rfl rfl (by decide) (by decide) rfl (by decide) (by decide) (by decide)

/-- C4: for an external transfer whose collaborator reports failure, the
optimistic debit is rolled back and the returned state is exactly the input
state (pre-debit balance restored, nothing recorded); when it reports
success, the source is debited by exactly the amount and one
"跨行转账至<bank>" record tagged with the destination account is appended,
other accounts' histories untouched. -/
theorem transfer_ext_rollback_and_success (bd : BankData)
    (u bank_name target_account : String) (amount : Int)
    (pw now srcCard : String)
    (hopen : lookupA bd.cards u = some srcCard)
    (hpw : verify_password bd u pw = true)
    (hpos : 0 < amount) (hlim : amount ≤ 50000)
    (hbal : amount ≤ getD bd.accounts u 0) :
    transfer_ext bd u bank_name target_account amount pw false now =
      (.extFailed, bd) ∧
    (transfer_ext bd u bank_name target_account amount pw true now).1 =
      .ok (getD bd.accounts u 0 - amount) ∧
    getD (transfer_ext bd u bank_name target_account amount pw true now).2.accounts
      u 0 = getD bd.accounts u 0 - amount ∧
    getD (transfer_ext bd u bank_name target_account amount pw true now).2.transactions
      u [] = trim100 (getD bd.transactions u [] ++
        [⟨now, "跨行转账至" ++ bank_name, amount, some target_account,
          getD bd.accounts u 0 - amount⟩]) ∧
    (∀ w, w ≠ u →
      getD (transfer_ext bd u bank_name target_account amount pw true now).2.transactions
        w [] = getD bd.transactions w []) := by
  have h3 : ¬ amount ≤ 0 := by omega
  have h4 : ¬ amount > 50000 := by omega
  have h5 : ¬ getD bd.accounts u 0 < amount := by omega
  have hacc : lookupA bd.accounts u = some (getD bd.accounts u 0) := by
    cases hl : lookupA bd.accounts u with
    | none => rw [getD, hl] at hbal; simp at hbal; omega
    | some v => rw [getD, hl]; rfl
  refine ⟨?_, ?_, ?_, ?_, ?_⟩
  · simp [transfer_ext, hopen, hpw, h3, h4, h5,
      setA_setA_restore _ _ _ _ hacc]
  · simp [transfer_ext, hopen, hpw, h3, h4, h5,
      add_transaction_accounts, getD_setA_self]
  · simp [transfer_ext, hopen, hpw, h3, h4, h5,
      add_transaction_accounts, getD_setA_self]
  · simp [transfer_ext, hopen, hpw, h3, h4, h5,
      add_transaction_self, getD_setA_self]
  · intro w hw
    simp [transfer_ext, hopen, hpw, h3, h4, h5,
      add_transaction_other _ _ _ _ _ _ _ hw]

theorem transfer_ext_rollback_and_success_witness :
    transfer_ext wBd "u1" "B" "acct" 30 "p1" false "t" = (.extFailed, wBd) ∧
    (transfer_ext wBd "u1" "B" "acct" 30 "p1" true "t").1 = .ok 70 ∧
    getD (transfer_ext wBd "u1" "B" "acct" 30 "p1" true "t").2.accounts "u1" 0 = 70 ∧
    getD (transfer_ext wBd "u1" "B" "acct" 30 "p1" true "t").2.transactions "u1" [] =
      [⟨"t", "跨行转账至B", 30, some "acct", 70⟩] ∧
    (∀ w, w ≠ "u1" →
      getD (transfer_ext wBd "u1" "B" "acct" 30 "p1" true "t").2.transactions w [] =
        getD wBd.transactions w []) :=
  transfer_ext_rollback_and_success wBd "u1" "B" "acct" 30 "p1" "t" "C1"
    rfl rfl (by decide) (by decide) (by decide)

/-- A distinguishable stored record for the history scenarios. -/
def wRec (i : Nat) : TxRecord := ⟨"t" ++ toString i, "存款", 1, none, 1⟩

/-- One-account state holding three records (oldest `wRec 0` first). -/
def wBd7 : BankData :=
  ⟨[("u1", 10)], [("u1", "C1")], [("u1", "p1")],
   [("u1", [wRec 0, wRec 1, wRec 2])]⟩

/-- C7 (counterexample): the supplied count is only capped above by 20
(`min(count, 20)`), never raised to 1.  With three stored records and a
supplied count of 0, the handler displays all three records (`records[-0:]`
is the whole list), not the single most recent record that a clamp of 0 into
[1, 20] would give. -/
theorem record_count_zero_counterexample :
    record_cmd wBd7 "u1" (some 0) "p1" = .display [wRec 2, wRec 1, wRec 0] ∧
    RecordReply.display [wRec 2, wRec 1, wRec 0] ≠ .display [wRec 2] :=
  ⟨rfl, by decide⟩

/-- C7 (amended): a supplied count is clamped above to 20 but not below;
for any supplied count ≥ 1 the handler returns the most recent
`min(count, 20)` records in most-recent-first order (all records when fewer
exist), and an absent count defaults to 10. -/
theorem record_cmd_clamp (bd : BankData) (u : String) (c : Int)
    (pw srcCard : String)
    (hopen : lookupA bd.cards u = some srcCard)
    (hpw : verify_password bd u pw = true)
    (hc : 1 ≤ c)
    (hne : getD bd.transactions u [] ≠ []) :
    record_cmd bd u (some c) pw =
      .display (((getD bd.transactions u []).drop
        ((getD bd.transactions u []).length - (min c 20).toNat)).reverse) ∧
    record_cmd bd u none pw =
      .display (((getD bd.transactions u []).drop
        ((getD bd.transactions u []).length - 10)).reverse) := by
  have h1 : ¬ (0 ≤ -(min c 20)) := by omega
  have h2 : ¬ ((0 : Int) ≤ -10) := by omega
  refine ⟨?_, ?_⟩
  · simp [record_cmd, hopen, hpw, pythonSliceFrom, h1,
      List.isEmpty_iff, hne]
  · simp [record_cmd, hopen, hpw, pythonSliceFrom, h2,
      List.isEmpty_iff, hne]

theorem record_cmd_clamp_witness :
    record_cmd wBd7 "u1" (some 2) "p1" = .display [wRec 2, wRec 1] ∧
    record_cmd wBd7 "u1" none "p1" = .display [wRec 2, wRec 1, wRec 0] :=
  record_cmd_clamp wBd7 "u1" 2 "p1" "C1" rfl rfl (by decide) (by decide)
